import Mathlib

/-!
Verification of the local glue logic of the `azureml-examples` repository:
the batch-input CSV chunking, the endpoint-invocation retry loop, the
compute-cluster setup branch, the batch-input DataFrame construction, the
predictions `read_csv` configuration, and the fine-tuning YAML descriptor.
Each piece of code is embedded shallowly as a Lean function and the spec's
properties are proved (or refuted) about the embedding.
-/

namespace AzureMLExamples

/-! ### CSV chunking (notebook cells 13, 17 and 20)

The notebook splits a DataFrame into files of 10 rows each:

  batch_size_per_predict = 10
  for i in range(0, len(batch_df), batch_size_per_predict):
      j = i + batch_size_per_predict
      batch_df[i:j].to_csv(os.path.join(folder, str(i) + batch_input_file))

A DataFrame's row sequence is embedded as a `List`. -/

/-- Python `range(0, stop, step)` for a positive `step`: the arithmetic
progression `0, step, 2*step, ...` of `⌈stop/step⌉` elements. -/
def pyRange (stop step : Nat) : List Nat :=
  List.range' 0 ((stop + step - 1) / step) step

/-- Python slice `xs[i:j]` (for `0 ≤ i ≤ j`): drop `i` elements, keep at
most `j - i`, clamped at the end of the list. -/
def pySlice (xs : List α) (i j : Nat) : List α :=
  (xs.drop i).take (j - i)

/-- The chunking loop body: the list of row slices
`batch_df[i:i+bs]` for `i in range(0, len(batch_df), bs)`. -/
def chunkDf (xs : List α) (bs : Nat) : List (List α) :=
  (pyRange xs.length bs).map (fun i => pySlice xs i (i + bs))

theorem chunkDf_nil (bs : Nat) : chunkDf ([] : List α) bs = [] := by
  have h0 : (bs - 1) / bs = 0 := by
    cases bs with
    | zero => rfl
    | succ b => exact Nat.div_eq_of_lt (by omega)
  simp [chunkDf, pyRange, h0]

theorem chunkDf_cons10 (xs : List α) (h : xs ≠ []) :
    chunkDf xs 10 = xs.take 10 :: chunkDf (xs.drop 10) 10 := by
  have hn : 0 < xs.length := List.length_pos.mpr h
  have hk : (xs.length + 10 - 1) / 10 = ((xs.drop 10).length + 10 - 1) / 10 + 1 := by
    simp only [List.length_drop]
    omega
  unfold chunkDf pyRange
  rw [hk, List.range'_succ]
  set m := ((xs.drop 10).length + 10 - 1) / 10 with hm
  simp only [List.map_cons]
  congr 1
  simp only [pySlice, Nat.add_sub_cancel_left, List.drop_drop]
  have hs : List.range' 10 m 10 = List.map (10 + ·) (List.range' 0 m 10) :=
    (List.map_add_range' 10 0 m 10).symm
  rw [hs, List.map_map]
  apply List.map_congr_left
  intro i _
  simp [Nat.add_comm]

/-- The concatenation of the chunks reconstructs the original row
sequence (bounded-length induction). -/
theorem chunkDf_flatten10_aux : ∀ (N : Nat) (xs : List α), xs.length ≤ N →
    (chunkDf xs 10).flatten = xs := by
  intro N
  induction N with
  | zero =>
    intro xs hxs
    have : xs = [] := List.length_eq_zero.mp (Nat.le_zero.mp hxs)
    subst this
    simp [chunkDf_nil]
  | succ N ih =>
    intro xs hxs
    by_cases hne : xs = []
    · subst hne; simp [chunkDf_nil]
    · rw [chunkDf_cons10 xs hne, List.flatten_cons,
        ih (xs.drop 10) (by simp; omega)]
      exact List.take_append_drop 10 xs

theorem chunkDf_flatten10 (xs : List α) : (chunkDf xs 10).flatten = xs :=
  chunkDf_flatten10_aux xs.length xs le_rfl

theorem chunkDf_length (xs : List α) (bs : Nat) :
    (chunkDf xs bs).length = (xs.length + bs - 1) / bs := by
  simp [chunkDf, pyRange]

theorem chunkDf_get10 (xs : List α) (k : Nat) (h : k < (chunkDf xs 10).length) :
    (chunkDf xs 10).get ⟨k, h⟩ = (xs.drop (10 * k)).take 10 := by
  have hk : k < (pyRange xs.length 10).length := by
    simpa [chunkDf] using h
  simp only [chunkDf, List.get_eq_getElem, List.getElem_map]
  have : (pyRange xs.length 10)[k] = 10 * k := by
    simp [pyRange]
  rw [this]
  simp [pySlice]

theorem chunkDf_get10_length (xs : List α) (k : Nat) (h : k < (chunkDf xs 10).length) :
    ((chunkDf xs 10).get ⟨k, h⟩).length = min 10 (xs.length - 10 * k) := by
  rw [chunkDf_get10]
  simp [List.length_take]

/-- **C1.** For every row sequence and the configured chunk size 10, the
chunking loop of cells 13/17/20 produces exactly `⌈n/10⌉` chunks; chunk `k`
is the contiguous slice `rows[10*k : 10*k+10]` (hence the chunks are
pairwise non-overlapping and in order of increasing start index); every
chunk except possibly the last has exactly 10 rows; when 10 does not
divide `n` the last chunk has `n % 10` rows; and the concatenation of the
chunks equals the original row sequence. -/
theorem chunking_partitions_rows (xs : List α) :
    (chunkDf xs 10).length = (xs.length + 9) / 10
    ∧ (chunkDf xs 10).flatten = xs
    ∧ (∀ k (h : k < (chunkDf xs 10).length),
        (chunkDf xs 10).get ⟨k, h⟩ = (xs.drop (10 * k)).take 10)
    ∧ (∀ k (h : k < (chunkDf xs 10).length), k + 1 < (chunkDf xs 10).length →
        ((chunkDf xs 10).get ⟨k, h⟩).length = 10)
    ∧ (xs.length % 10 ≠ 0 →
        ∃ c, (chunkDf xs 10).getLast? = some c ∧ c.length = xs.length % 10) := by
  have hlen : (chunkDf xs 10).length = (xs.length + 9) / 10 := by
    rw [chunkDf_length]
    omega
  refine ⟨hlen, chunkDf_flatten10 xs, fun k h => chunkDf_get10 xs k h, ?_, ?_⟩
  · intro k h hk1
    rw [chunkDf_get10_length]
    rw [hlen] at hk1
    omega
  · intro hmod
    have hne : 0 < (chunkDf xs 10).length := by
      rw [hlen]
      omega
    have hlast : (chunkDf xs 10).getLast? =
        (chunkDf xs 10).get? ((chunkDf xs 10).length - 1) :=
      List.getLast?_eq_get? _
    have hget : (chunkDf xs 10).get? ((chunkDf xs 10).length - 1) =
        some ((chunkDf xs 10).get ⟨(chunkDf xs 10).length - 1, by omega⟩) :=
      List.get?_eq_get (by omega)
    refine ⟨_, hlast.trans hget, ?_⟩
    rw [chunkDf_get10_length]
    rw [hlen]
    omega

/-- Witness for C1 at a concrete 23-row input: 3 chunks, reconstruction,
and a last chunk of `23 % 10 = 3` rows. -/
theorem chunking_partitions_rows_witness :
    (chunkDf (List.range 23) 10).length = 3
    ∧ (chunkDf (List.range 23) 10).flatten = List.range 23
    ∧ (∃ c, (chunkDf (List.range 23) 10).getLast? = some c ∧ c.length = 3) := by
  obtain ⟨h1, h2, -, -, h5⟩ := chunking_partitions_rows (List.range 23)
  exact ⟨by rw [h1]; decide, h2, by simpa using h5 (by decide)⟩

/-! ### Endpoint-invocation retry loop (notebook cells 29, 32 and 35)

  job = None
  num_retries = 3
  for i in range(num_retries):
      try:
          job = workspace_ml_client.batch_endpoints.invoke(...)
          break
      except Exception as e:
          if i == num_retries - 1:
              raise e
          else:
              print("Endpoint invocation failed. Retrying after 5 seconds...")
              time.sleep(5)
  if job is not None:
      workspace_ml_client.jobs.stream(job.name)

Attempt `i` of the remote invocation is embedded as `attempt i : Except ε σ`
(`ok` = the invocation returned a job, `error` = it raised an exception of
any type, with the exception object as the value). -/

/-- How the code after the loop resumes: either the loop completed and the
variable `job` holds `none` or `some j`, or an exception propagated out. -/
inductive RetryOutcome (ε σ : Type) where
  | completed (job : Option σ)
  | raised (e : ε)
deriving DecidableEq, Repr

/-- Observable trace of one run of the retry loop: the attempt indices at
which `invoke` was called (in order), the number of `time.sleep(5)` calls
executed, and how the loop ended. -/
structure RetryTrace (ε σ : Type) where
  calls : List Nat
  sleeps : Nat
  outcome : RetryOutcome ε σ
deriving DecidableEq, Repr

/-- The `for i in range(num_retries)` loop body, iterating over the
remaining index list. -/
def invokeLoop (attempt : Nat → Except ε σ) (numRetries : Nat) :
    List Nat → RetryTrace ε σ
  | [] => ⟨[], 0, .completed none⟩
  | i :: rest =>
    match attempt i with
    | .ok j => ⟨[i], 0, .completed (some j)⟩
    | .error e =>
      if i = numRetries - 1 then ⟨[i], 0, .raised e⟩
      else
        let t := invokeLoop attempt numRetries rest
        ⟨i :: t.calls, t.sleeps + 1, t.outcome⟩

/-- The notebook's retry wrapper with its configured `num_retries = 3`. -/
def invokeWithRetry (attempt : Nat → Except ε σ) : RetryTrace ε σ :=
  invokeLoop attempt 3 (List.range 3)

/-- The guard after the loop: `workspace_ml_client.jobs.stream` runs iff
control reaches it with `job is not None`. -/
def streamCalled (t : RetryTrace ε σ) : Bool :=
  match t.outcome with
  | .completed (some _) => true
  | _ => false

/-- Whether an embedded invocation attempt succeeded. -/
def attemptOk (r : Except ε σ) : Bool :=
  match r with
  | .ok _ => true
  | .error _ => false

theorem invokeWithRetry_eq (attempt : Nat → Except ε σ) :
    invokeWithRetry attempt =
      match attempt 0 with
      | .ok j => ⟨[0], 0, .completed (some j)⟩
      | .error _ =>
        match attempt 1 with
        | .ok j => ⟨[0, 1], 1, .completed (some j)⟩
        | .error _ =>
          match attempt 2 with
          | .ok j => ⟨[0, 1, 2], 2, .completed (some j)⟩
          | .error e => ⟨[0, 1, 2], 2, .raised e⟩ := by
  show invokeLoop attempt 3 [0, 1, 2] = _
  rcases h0 : attempt 0 with e0 | j0 <;>
    rcases h1 : attempt 1 with e1 | j1 <;>
    rcases h2 : attempt 2 with e2 | j2 <;>
    simp [invokeLoop, h0, h1, h2]

/-- **C2.** The retry wrapper calls the underlying invoke at most 3 times;
if the first success is at attempt `k` the loop stops there (the calls are
exactly `0, ..., k`) and the returned job is that attempt's result; if all
3 attempts fail, the loop re-raises exactly the exception object of the
third attempt. -/
theorem retry_bounded_and_reraises_last (attempt : Nat → Except ε σ) :
    (invokeWithRetry attempt).calls.length ≤ 3
    ∧ (∀ k j, k < 3 → attempt k = .ok j →
        (∀ m, m < k → attemptOk (attempt m) = false) →
        (invokeWithRetry attempt).outcome = .completed (some j)
          ∧ (invokeWithRetry attempt).calls = List.range (k + 1))
    ∧ (∀ e₀ e₁ e₂, attempt 0 = .error e₀ → attempt 1 = .error e₁ →
        attempt 2 = .error e₂ →
        (invokeWithRetry attempt).outcome = .raised e₂
          ∧ (invokeWithRetry attempt).calls = [0, 1, 2]) := by
  rw [invokeWithRetry_eq]
  refine ⟨?_, ?_, ?_⟩
  · rcases h0 : attempt 0 with e0 | j0 <;>
      rcases h1 : attempt 1 with e1 | j1 <;>
      rcases h2 : attempt 2 with e2 | j2 <;>
      simp
  · intro k j hk hok hfirst
    interval_cases k
    · simp [hok]
      decide
    · have h0 : attemptOk (attempt 0) = false := hfirst 0 (by omega)
      rcases he0 : attempt 0 with e0 | j0
      · simp [he0, hok]
        decide
      · rw [he0] at h0
        simp [attemptOk] at h0
    · have h0 : attemptOk (attempt 0) = false := hfirst 0 (by omega)
      have h1 : attemptOk (attempt 1) = false := hfirst 1 (by omega)
      rcases he0 : attempt 0 with e0 | j0
      · rcases he1 : attempt 1 with e1 | j1
        · simp [he0, he1, hok]
          decide
        · rw [he1] at h1
          simp [attemptOk] at h1
      · rw [he0] at h0
        simp [attemptOk] at h0
  · intro e₀ e₁ e₂ h0 h1 h2
    simp [h0, h1, h2]

/-- Witness for C2: with failures at attempts 0 and 2 and a success at
attempt 1, the wrapper returns attempt 1's job after calls `0, 1`; and a
run of three distinct failures re-raises the third one. -/
theorem retry_bounded_and_reraises_last_witness :
    ((invokeWithRetry (fun i => if i = 1 then .ok 42 else .error "boom" :
        Nat → Except String Nat)).outcome = .completed (some 42)
      ∧ (invokeWithRetry (fun i => if i = 1 then .ok 42 else .error "boom" :
          Nat → Except String Nat)).calls = List.range 2)
    ∧ ((invokeWithRetry (fun i => .error (toString i) :
        Nat → Except String Nat)).outcome = .raised "2"
      ∧ (invokeWithRetry (fun i => .error (toString i) :
          Nat → Except String Nat)).calls = [0, 1, 2]) := by
  constructor
  · exact (retry_bounded_and_reraises_last _).2.1 1 42 (by decide) (by rfl)
      (fun m hm => by interval_cases m; decide)
  · exact (retry_bounded_and_reraises_last _).2.2 "0" "1" "2"
      (by rfl) (by rfl) (by rfl)

/-- **C3.** The fixed 5-second sleep runs exactly once after each failed
attempt other than the final one — equivalently once between consecutive
calls — and never after a success nor after the final failed attempt, so a
run sleeps at most twice: the sleep count is exactly the number of calls
whose attempt failed at an index other than the last (`2`), it is one less
than the number of calls, and it is at most 2. -/
theorem sleep_between_consecutive_attempts (attempt : Nat → Except ε σ) :
    (invokeWithRetry attempt).sleeps =
      ((invokeWithRetry attempt).calls.filter
        (fun i => !attemptOk (attempt i) && i != 2)).length
    ∧ (invokeWithRetry attempt).sleeps + 1 = (invokeWithRetry attempt).calls.length
    ∧ (invokeWithRetry attempt).sleeps ≤ 2 := by
  rw [invokeWithRetry_eq]
  rcases h0 : attempt 0 with e0 | j0 <;>
    rcases h1 : attempt 1 with e1 | j1 <;>
    rcases h2 : attempt 2 with e2 | j2 <;>
    simp [h0, h1, h2, attemptOk, List.filter]

/-- Witness for C3 at a concrete run that fails once then succeeds:
one sleep, two calls, within the bound. -/
theorem sleep_between_consecutive_attempts_witness :
    ((invokeWithRetry (fun i => if i = 0 then .error "boom" else .ok 7 :
        Nat → Except String Nat)).sleeps + 1 =
      (invokeWithRetry (fun i => if i = 0 then .error "boom" else .ok 7 :
        Nat → Except String Nat)).calls.length)
    ∧ (invokeWithRetry (fun i => if i = 0 then .error "boom" else .ok 7 :
        Nat → Except String Nat)).sleeps ≤ 2 :=
  ⟨(sleep_between_consecutive_attempts _).2.1,
    (sleep_between_consecutive_attempts _).2.2⟩

/-- **C4.** The wrapper performs no classification of retryable versus
fatal errors: whatever exception value an executed non-final attempt
raises, the next attempt is still executed. -/
theorem retry_ignores_exception_class (attempt : Nat → Except ε σ)
    (i : Nat) (e : ε) (hi : i < 2)
    (hc : i ∈ (invokeWithRetry attempt).calls)
    (he : attempt i = .error e) :
    i + 1 ∈ (invokeWithRetry attempt).calls := by
  rw [invokeWithRetry_eq] at hc ⊢
  interval_cases i
  · rcases h1 : attempt 1 with e1 | j1 <;>
      rcases h2 : attempt 2 with e2 | j2 <;>
      simp [he, h1, h2]
  · rcases h0 : attempt 0 with e0 | j0 <;>
      rcases h2 : attempt 2 with e2 | j2 <;>
      simp [he, h0, h2] at hc ⊢

/-- Witness for C4: an exception of an arbitrary type (here `String`) at
attempt 0 still leads to attempt 1 being called. -/
theorem retry_ignores_exception_class_witness :
    1 ∈ (invokeWithRetry (fun _ => .error "fatal-looking error" :
      Nat → Except String Nat)).calls :=
  retry_ignores_exception_class _ 0 "fatal-looking error" (by decide)
    (by decide) (by rfl)

theorem streamCalled_eq_or (attempt : Nat → Except ε σ) :
    streamCalled (invokeWithRetry attempt) =
      (attemptOk (attempt 0) || attemptOk (attempt 1) || attemptOk (attempt 2)) := by
  rw [invokeWithRetry_eq]
  rcases h0 : attempt 0 with e0 | j0 <;>
    rcases h1 : attempt 1 with e1 | j1 <;>
    rcases h2 : attempt 2 with e2 | j2 <;>
    simp [h0, h1, h2, attemptOk, streamCalled]

/-- **C9.** Control never reaches the `if job is not None` guard with
`job = None`: the loop either breaks after a success or re-raises, so
`jobs.stream` runs if and only if some invocation attempt succeeded. -/
theorem stream_iff_some_attempt_succeeded (attempt : Nat → Except ε σ) :
    (invokeWithRetry attempt).outcome ≠ RetryOutcome.completed none
    ∧ (streamCalled (invokeWithRetry attempt) = true ↔
        ∃ i, i < 3 ∧ attemptOk (attempt i) = true) := by
  constructor
  · rw [invokeWithRetry_eq]
    rcases h0 : attempt 0 with e0 | j0 <;>
      rcases h1 : attempt 1 with e1 | j1 <;>
      rcases h2 : attempt 2 with e2 | j2 <;>
      simp
  · rw [streamCalled_eq_or]
    simp only [Bool.or_eq_true]
    constructor
    · rintro ((h | h) | h)
      · exact ⟨0, by omega, h⟩
      · exact ⟨1, by omega, h⟩
      · exact ⟨2, by omega, h⟩
    · rintro ⟨i, hi, h⟩
      interval_cases i <;> tauto

/-- Witness for C9: with a first-attempt success the stream call happens,
and the `job is None` branch is never taken. -/
theorem stream_iff_some_attempt_succeeded_witness :
    (invokeWithRetry (fun _ => .ok 7 : Nat → Except String Nat)).outcome ≠
      RetryOutcome.completed none
    ∧ streamCalled (invokeWithRetry (fun _ => .ok 7 :
        Nat → Except String Nat)) = true :=
  ⟨(stream_iff_some_attempt_succeeded _).1,
    (stream_iff_some_attempt_succeeded _).2.mpr ⟨0, by omega, by rfl⟩⟩

/-! ### Chunk file naming (notebook cells 13, 17 and 20)

Each chunk is written to `os.path.join(folder, str(i) + batch_input_file)`
with `batch_input_file = "batch_input.csv"` and `i` the chunk's start
index. `str(i)` for a Python non-negative int is the decimal numeral,
embedded as `Nat.repr`. To show the naming injective we build a decimal
parser that inverts `Nat.repr`. -/

/-- Numeric value of a decimal digit character. -/
def decDigit (c : Char) : Nat := c.toNat - 48

/-- Parse a most-significant-first decimal digit string. -/
def decParseList (cs : List Char) : Nat :=
  cs.foldl (fun a c => a * 10 + decDigit c) 0

def natOfRepr (s : String) : Nat := decParseList s.data

/-- `accPush a n` appends the decimal digits of `n` to the number `a`. -/
def accPush (a n : Nat) : Nat :=
  if n < 10 then a * 10 + n
  else accPush a (n / 10) * 10 + n % 10
termination_by n
decreasing_by exact Nat.div_lt_self (by omega) (by omega)

theorem accPush_zero (n : Nat) : accPush 0 n = n := by
  induction n using Nat.strong_induction_on with
  | _ n ih =>
    rw [accPush]
    split
    · omega
    · rw [ih (n / 10) (Nat.div_lt_self (by omega) (by omega))]
      omega

theorem decDigit_digitChar (d : Nat) (h : d < 10) :
    decDigit (Nat.digitChar d) = d := by
  interval_cases d <;> rfl

theorem toDigitsCore_foldl (fuel : Nat) : ∀ (n : Nat) (ds : List Char) (a : Nat),
    n < fuel →
    (Nat.toDigitsCore 10 fuel n ds).foldl (fun a c => a * 10 + decDigit c) a
      = ds.foldl (fun a c => a * 10 + decDigit c) (accPush a n) := by
  induction fuel with
  | zero => intro n ds a h; omega
  | succ fuel ih =>
    intro n ds a h
    rw [Nat.toDigitsCore]
    by_cases hn : n / 10 = 0
    · have hlt : n < 10 := by omega
      rw [if_pos hn, List.foldl_cons,
        decDigit_digitChar _ (by omega : n % 10 < 10),
        Nat.mod_eq_of_lt hlt, accPush, if_pos hlt]
    · have hge : 10 ≤ n := by omega
      have hdiv : n / 10 < n := Nat.div_lt_self (by omega) (by omega)
      have hfuel : n / 10 < fuel := by omega
      rw [if_neg hn, ih (n / 10) _ a hfuel, List.foldl_cons,
        decDigit_digitChar _ (by omega : n % 10 < 10)]
      congr 1
      conv_rhs => rw [accPush]
      rw [if_neg (by omega)]

theorem natOfRepr_repr (n : Nat) : natOfRepr (Nat.repr n) = n := by
  show decParseList (Nat.toDigits 10 n).asString.data = n
  rw [show (Nat.toDigits 10 n).asString.data = Nat.toDigits 10 n from rfl]
  show (Nat.toDigitsCore 10 (n + 1) n []).foldl (fun a c => a * 10 + decDigit c) 0 = n
  rw [toDigitsCore_foldl (n + 1) n [] 0 (by omega), List.foldl_nil, accPush_zero]

theorem repr_injective : Function.Injective Nat.repr := by
  intro m n h
  rw [← natOfRepr_repr m, ← natOfRepr_repr n, h]

/-- The per-chunk file name, `str(i) + "batch_input.csv"`. -/
def batchInputFileName (i : Nat) : String :=
  Nat.repr i ++ "batch_input.csv"

/-- The chunking loop together with the file it writes each chunk to:
`(file name, chunk)` pairs, one `to_csv` call per loop iteration. -/
def chunkFiles (xs : List α) : List (String × List α) :=
  (pyRange xs.length 10).map (fun i => (batchInputFileName i, pySlice xs i (i + 10)))

theorem batchInputFileName_injective : Function.Injective batchInputFileName := by
  intro m n h
  apply repr_injective
  have hd : (Nat.repr m).data ++ "batch_input.csv".data
      = (Nat.repr n).data ++ "batch_input.csv".data := by
    have := congrArg String.data h
    simpa [batchInputFileName] using this
  have : (Nat.repr m).data = (Nat.repr n).data :=
    List.append_cancel_right hd
  exact congrArg String.mk this

/-- **C8.** Chunk file names `str(i) + "batch_input.csv"` are injective in
the start index, so for every input the files written are pairwise
distinct (none overwrites another) and the number of files written equals
the number of chunks. -/
theorem chunk_files_distinct (xs : List α) :
    Function.Injective batchInputFileName
    ∧ ((chunkFiles xs).map Prod.fst).Nodup
    ∧ (chunkFiles xs).length = (chunkDf xs 10).length := by
  refine ⟨batchInputFileName_injective, ?_, ?_⟩
  · have : (chunkFiles xs).map Prod.fst
        = (pyRange xs.length 10).map batchInputFileName := by
      simp [chunkFiles]
    rw [this]
    exact (List.nodup_range' 0 _ 10 (by omega)).map
      (fun a b hab => batchInputFileName_injective hab)
  · simp [chunkFiles, chunkDf]

/-- Witness for C8 at a concrete 23-row input: the three file names
written are pairwise distinct. -/
theorem chunk_files_distinct_witness :
    ((chunkFiles (List.range 23)).map Prod.fst).Nodup
    ∧ (chunkFiles (List.range 23)).length = 3 :=
  ⟨(chunk_files_distinct (List.range 23)).2.1,
    by rw [(chunk_files_distinct (List.range 23)).2.2]; decide⟩

/-! ### Batch-input DataFrames (notebook cells 10, 12, 16 and 19)

Cell 10 walks the dataset directory and builds `image_list` (base64
payloads) and `image_path_list` (the corresponding paths), leaving the
plain loop variable `image_path` holding the last path processed.

  Cell 12: data = [[image, ""] for image in image_list]
  Cell 16: data = [["", "a photo of a " +
             os.path.basename(os.path.dirname(image_path))]
            for image_path in image_path_list]
  Cell 19: data = [[image_list[i], "a photo of a " +
             os.path.basename(os.path.dirname(image_path))]
            for i in range(len(image_list))]

In cell 19 the name `image_path` is not bound by the comprehension
(Python 3 comprehension variables do not leak, so cell 16's binding is
gone): it is the stale module-level variable from cell 10. -/

/-- Split a character list on `'/'` into path components. -/
def splitOnSlash : List Char → List (List Char)
  | [] => [[]]
  | c :: cs =>
    match splitOnSlash cs with
    | [] => [[]]
    | h :: t => if c = '/' then [] :: h :: t else (c :: h) :: t

/-- Python `os.path.basename` for the `/`-joined relative paths the
notebook builds: the component after the last slash. -/
def pyBasename (p : String) : String :=
  ⟨(splitOnSlash p.data).getLastD []⟩

/-- Python `os.path.dirname` for such paths: everything before the last
slash. -/
def pyDirname (p : String) : String :=
  ⟨List.intercalate ['/'] (splitOnSlash p.data).dropLast⟩

/-- The caption of cells 16 and 19:
`"a photo of a " + os.path.basename(os.path.dirname(image_path))`. -/
def captionOf (image_path : String) : String :=
  "a photo of a " ++ pyBasename (pyDirname image_path)

/-- A pandas DataFrame: named columns plus a row sequence. -/
structure DataFrame (ρ : Type) where
  columns : List String
  rows : List ρ
deriving DecidableEq, Repr

/-- `pd.DataFrame(data, columns=["image", "text"])`. -/
def mkImageTextDf (data : List (String × String)) : DataFrame (String × String) :=
  ⟨["image", "text"], data⟩

/-- Cell 12: the image-only batch input. -/
def imageOnlyDf (image_list : List String) : DataFrame (String × String) :=
  mkImageTextDf (image_list.map (fun image => (image, "")))

/-- Cell 16: the text-only batch input. -/
def textOnlyDf (image_path_list : List String) : DataFrame (String × String) :=
  mkImageTextDf (image_path_list.map
    (fun image_path => ("", captionOf image_path)))

/-- Cell 19 as written: the caption uses the free variable `image_path`,
the same value for every row `i`. -/
def imageTextDf (image_list : List String) (image_path : String) :
    DataFrame (String × String) :=
  mkImageTextDf ((List.range image_list.length).map
    (fun i => (image_list.getD i "", captionOf image_path)))

/-- Cell 19 in the state cell 10 leaves behind: `image_path` is the last
path appended to `image_path_list`. -/
def imageTextDfRun (image_list image_path_list : List String) :
    DataFrame (String × String) :=
  imageTextDf image_list (image_path_list.getLastD "")

/-- **C5 (failing part).** At a concrete two-image input whose paths lie
in different class directories, the combined DataFrame of cell 19 gives
row 0 the caption of the *last* processed path (`"a photo of a carton"`),
not the caption derived from `image_path_list[0]` (`"a photo of a can"`)
as the claim states; the image-only and text-only DataFrames do use the
claimed per-row values. -/
theorem combined_df_uses_stale_image_path :
    (imageTextDfRun ["img0", "img1"]
        ["data/fridgeObjects/can/1.jpg", "data/fridgeObjects/carton/2.jpg"]).rows
      = [("img0", "a photo of a carton"), ("img1", "a photo of a carton")]
    ∧ captionOf "data/fridgeObjects/can/1.jpg" = "a photo of a can"
    ∧ ((imageTextDfRun ["img0", "img1"]
        ["data/fridgeObjects/can/1.jpg", "data/fridgeObjects/carton/2.jpg"]).rows.getD 0 ("", "")
      ≠ ("img0", captionOf "data/fridgeObjects/can/1.jpg"))
    ∧ (imageOnlyDf ["img0", "img1"]).columns = ["image", "text"]
    ∧ (imageOnlyDf ["img0", "img1"]).rows = [("img0", ""), ("img1", "")]
    ∧ (textOnlyDf ["data/fridgeObjects/can/1.jpg", "data/fridgeObjects/carton/2.jpg"]).rows
      = [("", "a photo of a can"), ("", "a photo of a carton")] := by
  refine ⟨?_, ?_, ?_, ?_, ?_, ?_⟩ <;> decide

/-! ### Predictions CSV loading (notebook cells 30, 33 and 36)

  score_df = pd.read_csv(predictions_file, header=None, names=[...]) -/

/-- The arguments the notebook passes to `pd.read_csv`. -/
structure ReadCsvCall where
  header : Option Nat
  names : List String
deriving DecidableEq, Repr

/-- Cell 30 (image-only run). -/
def imageRunReadCsv : ReadCsvCall :=
  ⟨none, ["row_number_per_file", "image_features", "file_name"]⟩

/-- Cell 33 (text-only run). -/
def textRunReadCsv : ReadCsvCall :=
  ⟨none, ["row_number_per_file", "text_features", "file_name"]⟩

/-- Cell 36 (combined run). -/
def imageTextRunReadCsv : ReadCsvCall :=
  ⟨none, ["row_number_per_file", "image_features", "text_features", "file_name"]⟩

/-- Modelled from the spec: pandas `read_csv` itself is an external
library. Per the spec the predictions file has "positional columns ...
and no header row — callers must supply column names out-of-band": with
`header=None` every file row is data and the caller-supplied `names`
become the columns; with `header=k` file row `k` would be consumed as the
header. -/
def readCsv (call : ReadCsvCall) (fileRows : List (List String)) :
    DataFrame (List String) :=
  match call.header with
  | none => ⟨call.names, fileRows⟩
  | some k => ⟨fileRows.getD k [], fileRows.drop (k + 1)⟩

/-- **C6.** All three prediction loads pass `header=None` and supply the
column names out-of-band — 3 names (`row_number_per_file`, one feature
column, `file_name`) for the image-only and text-only runs and 4 names
for the combined run — and with `header=None` no file row is consumed as
a header: every row stays data and the supplied names become the
columns. -/
theorem predictions_read_positional (fileRows : List (List String)) :
    (imageRunReadCsv.header = none
      ∧ imageRunReadCsv.names = ["row_number_per_file", "image_features", "file_name"]
      ∧ readCsv imageRunReadCsv fileRows = ⟨imageRunReadCsv.names, fileRows⟩)
    ∧ (textRunReadCsv.header = none
      ∧ textRunReadCsv.names = ["row_number_per_file", "text_features", "file_name"]
      ∧ readCsv textRunReadCsv fileRows = ⟨textRunReadCsv.names, fileRows⟩)
    ∧ (imageTextRunReadCsv.header = none
      ∧ imageTextRunReadCsv.names
          = ["row_number_per_file", "image_features", "text_features", "file_name"]
      ∧ readCsv imageTextRunReadCsv fileRows = ⟨imageTextRunReadCsv.names, fileRows⟩) :=
  ⟨⟨rfl, rfl, rfl⟩, ⟨rfl, rfl, rfl⟩, ⟨rfl, rfl, rfl⟩⟩

/-! ### Fine-tuning job YAML descriptor (the `finetuning` YAML file)

  compute: "lowpri-a100"
  training_data: train.jsonl
  validation_data:
    path: validation.jsonl
    type: uri_file
  hyperparameters:
    num_train_epochs: "1"
    per_device_train_batch_size: "1"
    learning_rate: "0.00002" -/

structure FinetuningHyperparameters where
  num_train_epochs : String
  per_device_train_batch_size : String
  learning_rate : String
deriving DecidableEq, Repr

structure DataRef where
  path : String
  dataType : String
deriving DecidableEq, Repr

/-- The fine-tuning job YAML document, field for field. -/
structure FinetuningJobYaml where
  jobType : String
  name : String
  experiment_name : String
  display_name : String
  task : String
  model_provider : String
  model : DataRef
  compute : String
  training_data : String
  validation_data : DataRef
  hyperparameters : FinetuningHyperparameters
deriving DecidableEq, Repr

/-- The content of the repository's fine-tuning YAML file. -/
def finetuningJobYaml : FinetuningJobYaml :=
  { jobType := "finetuning"
    name := "llama-3-8B-with-compute"
    experiment_name := "llama-3-8B-finetuning-experiment"
    display_name := "llama3-8B-display-name"
    task := "text_completion"
    model_provider := "custom"
    model := ⟨"azureml://registries/azureml-meta/models/Meta-Llama-3-8B/versions/8",
      "mlflow_model"⟩
    compute := "lowpri-a100"
    training_data := "train.jsonl"
    validation_data := ⟨"validation.jsonl", "uri_file"⟩
    hyperparameters := ⟨"1", "1", "0.00002"⟩ }

/-- The deserialized configuration object's fields relevant to the claim. -/
structure JobConfig where
  compute : String
  training_data : String
  validation_data_path : String
  hyperparameters : FinetuningHyperparameters
deriving DecidableEq, Repr

/-- Modelled from the spec: the Azure ML SDK's YAML deserializer is not in
the repository; per the spec "the YAML job descriptor deserializes into a
configuration object exposing the specified compute target, data paths,
and hyperparameter values unchanged". -/
def deserializeFinetuningYaml (y : FinetuningJobYaml) : JobConfig :=
  { compute := y.compute
    training_data := y.training_data
    validation_data_path := y.validation_data.path
    hyperparameters := y.hyperparameters }

/-- **C7.** Deserializing the fine-tuning YAML descriptor exposes the
written values unchanged: compute `"lowpri-a100"`, training data
`"train.jsonl"`, validation data `"validation.jsonl"`, and the string
hyperparameters `"1"`, `"1"`, `"0.00002"`. -/
theorem yaml_deserializes_unchanged :
    (deserializeFinetuningYaml finetuningJobYaml).compute = "lowpri-a100"
    ∧ (deserializeFinetuningYaml finetuningJobYaml).training_data = "train.jsonl"
    ∧ (deserializeFinetuningYaml finetuningJobYaml).validation_data_path
        = "validation.jsonl"
    ∧ (deserializeFinetuningYaml finetuningJobYaml).hyperparameters.num_train_epochs = "1"
    ∧ (deserializeFinetuningYaml finetuningJobYaml).hyperparameters.per_device_train_batch_size = "1"
    ∧ (deserializeFinetuningYaml finetuningJobYaml).hyperparameters.learning_rate
        = "0.00002" :=
  ⟨rfl, rfl, rfl, rfl, rfl, rfl⟩

/-! ### Compute-cluster setup (notebook cell 4)

  try:
      _ = workspace_ml_client.compute.get(compute_name)
  except ResourceNotFoundError:
      compute_config = AmlCompute(name=compute_name, ...,
          size="Standard_DS3_V2", min_instances=0, max_instances=3,
          idle_time_before_scale_down=120)
      workspace_ml_client.begin_create_or_update(compute_config).result() -/

/-- The `AmlCompute` creation arguments of cell 4. -/
structure AmlComputeCfg where
  name : String
  description : String
  size : String
  min_instances : Nat
  max_instances : Nat
  idle_time_before_scale_down : Nat
deriving DecidableEq, Repr

def computeConfig : AmlComputeCfg :=
  { name := "cpu-cluster"
    description := "An AML compute cluster"
    size := "Standard_DS3_V2"
    min_instances := 0
    max_instances := 3
    idle_time_before_scale_down := 120 }

/-- Possible results of `workspace_ml_client.compute.get`: an existing
cluster, a `ResourceNotFoundError`, or any other exception `e`. -/
inductive GetComputeResult (κ ε : Type) where
  | found (c : κ)
  | resourceNotFound
  | failed (e : ε)

/-- What the setup block ends up doing. -/
inductive ComputeSetupAction (κ : Type) where
  | usedExisting (c : κ)
  | created (cfg : AmlComputeCfg)
deriving DecidableEq, Repr

/-- Cell 4's try/except: only `ResourceNotFoundError` is caught and leads
to a creation call; any other exception propagates. -/
def ensureCompute (lookup : GetComputeResult κ ε) :
    Except ε (ComputeSetupAction κ) :=
  match lookup with
  | .found c => .ok (.usedExisting c)
  | .resourceNotFound => .ok (.created computeConfig)
  | .failed e => .error e

/-- **C10.** The setup issues a creation call (min 0 / max 3 instances,
size `Standard_DS3_V2`) exactly when the lookup raises
`ResourceNotFoundError`; a successful lookup leaves the existing cluster
untouched, and any other exception propagates with no creation call. -/
theorem compute_created_only_when_not_found (lookup : GetComputeResult κ ε) :
    (∀ c, lookup = .found c → ensureCompute lookup = .ok (.usedExisting c))
    ∧ (lookup = .resourceNotFound →
        ensureCompute lookup = .ok (.created computeConfig)
        ∧ computeConfig.min_instances = 0
        ∧ computeConfig.max_instances = 3
        ∧ computeConfig.size = "Standard_DS3_V2")
    ∧ (∀ e, lookup = .failed e → ensureCompute lookup = .error e) := by
  refine ⟨?_, ?_, ?_⟩
  · rintro c rfl
    rfl
  · rintro rfl
    exact ⟨rfl, rfl, rfl, rfl⟩
  · rintro e rfl
    rfl

/-- Witness for C10: a not-found lookup creates the configured cluster,
and a quota exception propagates unchanged. -/
theorem compute_created_only_when_not_found_witness :
    ensureCompute (GetComputeResult.resourceNotFound : GetComputeResult Unit String)
      = .ok (.created computeConfig)
    ∧ ensureCompute (GetComputeResult.failed "quota exceeded" :
        GetComputeResult Unit String) = .error "quota exceeded" :=
  ⟨((compute_created_only_when_not_found _).2.1 rfl).1,
    (compute_created_only_when_not_found _).2.2 "quota exceeded" rfl⟩

end AzureMLExamples
